import Mathlib

/-!
Shallow embedding of the Spotify data pipeline core.

The embedded code is:
* `ETL/transform.py` — `playlist_to_bronze`, `top_tracks_to_bronze`,
  `bronze_to_silver`, `silver_to_gold`;
* `ETL/spotify.py` — the retry loop of `SpotifyClient._request`;
* `ETL/main.py` — the orchestration and success/failure decision of `run`.

Modelling conventions:
* A missing JSON value (`None` / absent key) is `Option.none`.
* `snapshot_date` is a day ordinal (`Nat`); the pipeline never computes with it.
* The upstream `popularity` metric is an integer, so
  `pd.to_numeric(...).round().astype("Int64")` is the identity on present values
  and keeps absent values absent; scores are modelled as `Option Int`.
* A pandas `DataFrame` is a list of typed rows; `DataFrame.empty` is `List.isEmpty`.
* `groupby(keys, as_index=False, sort=True)` is modelled as: deduplicate the list
  of key tuples, sort it ascending (lexicographic tuple order, matching Python
  tuple comparison), and aggregate the members of each group.
* `sort_values([...], ascending=[...])` is modelled as sorting by the
  corresponding lexicographic relation.  (pandas uses an unstable quicksort; the
  theorems below only use properties that hold for any sort by these keys.)
* network I/O is scripted: the fetch layer is a function of the list of
  responses the server would return.
-/

namespace SpotifyETL

/-- One entry of `track["artists"]`: `id` and `name` may each be missing. -/
structure RawArtist where
  id : Option String
  name : Option String
deriving DecidableEq, Repr

/-- A track payload.  `popularity` is the upstream popularity metric
(an integer when present). -/
structure RawTrack where
  id : Option String
  name : Option String
  artists : List RawArtist
  popularity : Option Int
deriving DecidableEq, Repr

/-- One playlist item.  `track = none` covers a missing key, `None`, or an empty
(falsy) track object: `playlist_to_bronze` skips the item in all three cases
(`item.get("track") or {}` followed by `if not track: continue`). -/
structure RawItem where
  track : Option RawTrack
deriving DecidableEq, Repr

/-- One row of the `bronze_daily_tracks` table (`BRONZE_COLUMNS`). -/
structure BronzeRow where
  snapshot_date : Nat
  market : String
  playlist_id : String
  playlist_name : String
  rank : Nat
  track_id : String
  track_name : Option String
  artist_ids : List String
  artist_names : List String
  score : Option Int
deriving DecidableEq, Repr

/-- `[str(artist.get("id")) for artist in artists if artist.get("id")]`:
keeps ids that are truthy (present and non-empty); `str` on a string is the
identity. -/
def artistIdsOf (artists : List RawArtist) : List String :=
  artists.filterMap fun a =>
    match a.id with
    | some s => if s = "" then none else some s
    | none => none

/-- `[str(artist.get("name")) for artist in artists if artist.get("name") is
not None]`: keeps names that are present, including the empty string. -/
def artistNamesOf (artists : List RawArtist) : List String :=
  artists.filterMap fun a => a.name

/-- `track.get("id")` followed by the falsiness test `if not track_id`:
a missing or empty id does not resolve. -/
def resolvedTrackId (t : RawTrack) : Option String :=
  match t.id with
  | some s => if s = "" then none else some s
  | none => none

/-- The row appended for one kept track (both normalizers append the same
dictionary shape). -/
def bronzeRowOfTrack (market playlist_id playlist_name : String)
    (snapshot_date rank : Nat) (t : RawTrack) : Option BronzeRow :=
  match resolvedTrackId t with
  | none => none
  | some tid =>
      some { snapshot_date := snapshot_date, market := market,
             playlist_id := playlist_id, playlist_name := playlist_name,
             rank := rank, track_id := tid, track_name := t.name,
             artist_ids := artistIdsOf t.artists,
             artist_names := artistNamesOf t.artists,
             score := t.popularity }

/-- The loop of `playlist_to_bronze`: `for rank, raw_item in enumerate(items,
start=1)`, generalized over the starting rank. -/
def playlistRows (market playlist_id playlist_name : String)
    (snapshot_date : Nat) : Nat → List RawItem → List BronzeRow
  | _, [] => []
  | rank, item :: rest =>
      let tail := playlistRows market playlist_id playlist_name snapshot_date
        (rank + 1) rest
      match item.track with
      | none => tail
      | some t =>
          match bronzeRowOfTrack market playlist_id playlist_name snapshot_date
            rank t with
          | none => tail
          | some row => row :: tail

/-- `transform.playlist_to_bronze`.  The trailing dtype conversions
(`to_numeric` on `rank`, `to_numeric(...).round().astype("Int64")` on `score`,
`to_datetime(...).dt.date` on `snapshot_date`) are identities on the typed rows
built here. -/
def playlist_to_bronze (items : List RawItem)
    (market playlist_id playlist_name : String) (snapshot_date : Nat) :
    List BronzeRow :=
  playlistRows market playlist_id playlist_name snapshot_date 1 items

/-- The loop of `top_tracks_to_bronze` (same as `playlistRows` but the items
are track objects directly). -/
def topTracksRows (market playlist_id playlist_name : String)
    (snapshot_date : Nat) : Nat → List RawTrack → List BronzeRow
  | _, [] => []
  | rank, t :: rest =>
      let tail := topTracksRows market playlist_id playlist_name snapshot_date
        (rank + 1) rest
      match bronzeRowOfTrack market playlist_id playlist_name snapshot_date
        rank t with
      | none => tail
      | some row => row :: tail

/-- `transform.top_tracks_to_bronze`. -/
def top_tracks_to_bronze (tracks : List RawTrack)
    (market playlist_id playlist_name : String) (snapshot_date : Nat) :
    List BronzeRow :=
  topTracksRows market playlist_id playlist_name snapshot_date 1 tracks

/-- The track identity an item resolves to, if any:
`(item.get("track") or \x7b\x7d).get("id")` with both falsiness tests. -/
def resolvableId (it : RawItem) : Option String :=
  it.track.bind resolvedTrackId

/-- A track whose every artist object carries a truthy id and a present name
(the condition under which the two comprehensions of the normalizer keep the
same artists). -/
def allArtistsComplete (artists : List RawArtist) : Prop :=
  ∀ a ∈ artists, (∃ s, a.id = some s ∧ s ≠ "") ∧ a.name ≠ none

/-- One row of the exploded intermediate frame of `bronze_to_silver`
(columns `snapshot_date, market, artist_id, artist_name, track_id, score,
rank`). -/
structure ExplodedRow where
  snapshot_date : Nat
  market : String
  artist_id : String
  artist_name : String
  track_id : String
  score : Option Int
  rank : Nat
deriving DecidableEq, Repr

/-- The fan-out of one bronze row:
`zip(row["artist_ids"] or [], row["artist_names"] or [])` (Python `zip`
truncates to the shorter list; `or []` is the identity on lists). -/
def explodeRow (r : BronzeRow) : List ExplodedRow :=
  (r.artist_ids.zip r.artist_names).map fun p =>
    { snapshot_date := r.snapshot_date, market := r.market, artist_id := p.1,
      artist_name := p.2, track_id := r.track_id, score := r.score,
      rank := r.rank }

/-- The whole exploded frame.  A row with an empty pair list contributes
nothing (`if not artist_pairs: continue`). -/
def explode (rows : List BronzeRow) : List ExplodedRow :=
  (rows.map explodeRow).flatten

/-- One row of the silver table (`SILVER_COLUMNS`). -/
structure SilverRow where
  snapshot_date : Nat
  market : String
  artist_id : String
  artist_name : String
  tracks : Nat
  total_score : Int
  best_rank : Nat
deriving DecidableEq, Repr

/-- One row of the gold table (`GOLD_COLUMNS`). -/
structure GoldRow where
  snapshot_date : Nat
  artist_id : String
  artist_name : String
  markets : Nat
  total_score : Int
  best_rank : Nat
deriving DecidableEq, Repr

/-- Lexicographic comparison step: order by the image under `f` first and
break ties with `s`.  Chains of `lexLe` model both Python tuple comparison
(pandas sorted group keys) and `sort_values` with several keys. -/
def lexLe {γ : Type} {α : Type} [LinearOrder α] (f : γ → α) (s : γ → γ → Prop)
    (a b : γ) : Prop :=
  f a < f b ∨ (f a = f b ∧ s a b)

instance lexLeDecidable {γ α : Type} [LinearOrder α] (f : γ → α)
    (s : γ → γ → Prop) [DecidableRel s] : DecidableRel (lexLe f s) := fun a b =>
  decidable_of_iff (f a < f b ∨ (f a = f b ∧ s a b)) Iff.rfl

theorem lexLe_total {γ α : Type} [LinearOrder α] (f : γ → α)
    (s : γ → γ → Prop) (hs : ∀ a b, s a b ∨ s b a) (a b : γ) :
    lexLe f s a b ∨ lexLe f s b a := by
  rcases lt_trichotomy (f a) (f b) with h | h | h
  · exact Or.inl (Or.inl h)
  · rcases hs a b with hab | hba
    · exact Or.inl (Or.inr ⟨h, hab⟩)
    · exact Or.inr (Or.inr ⟨h.symm, hba⟩)
  · exact Or.inr (Or.inl h)

theorem lexLe_trans {γ α : Type} [LinearOrder α] (f : γ → α)
    (s : γ → γ → Prop) (hs : ∀ a b c, s a b → s b c → s a c) (a b c : γ)
    (hab : lexLe f s a b) (hbc : lexLe f s b c) : lexLe f s a c := by
  rcases hab with h1 | ⟨e1, h1⟩ <;> rcases hbc with h2 | ⟨e2, h2⟩
  · exact Or.inl (h1.trans h2)
  · exact Or.inl (lt_of_lt_of_eq h1 e2)
  · exact Or.inl (lt_of_eq_of_lt e1 h2)
  · exact Or.inr ⟨e1.trans e2, hs _ _ _ h1 h2⟩

/-- Group key of `bronze_to_silver`:
`["snapshot_date", "market", "artist_id", "artist_name"]`. -/
abbrev GKey := Nat × String × String × String

def gkey (e : ExplodedRow) : GKey :=
  (e.snapshot_date, e.market, e.artist_id, e.artist_name)

/-- The always-true tie-break ending a lexicographic chain: `lexLe f` of it
is exactly weak (reflexive) ordering by `f` alone. -/
instance decidableRelTrue {γ : Type} : DecidableRel (fun (_ _ : γ) => True) :=
  fun _ _ => Decidable.isTrue trivial

/-- Ascending order on group keys (pandas `groupby(..., sort=True)` sorts the
group keys like Python tuples; Python compares strings lexicographically by
code point, which is the lexicographic order on their character lists). -/
def gkeyLe : GKey → GKey → Prop :=
  lexLe (·.1) (lexLe (fun k => k.2.1.data) (lexLe (fun k => k.2.2.1.data)
    (lexLe (fun k => k.2.2.2.data) fun _ _ => True)))

instance : DecidableRel gkeyLe := by unfold gkeyLe; infer_instance

instance : IsTotal GKey gkeyLe :=
  ⟨lexLe_total _ _ (lexLe_total _ _ (lexLe_total _ _ (lexLe_total _ _
    fun _ _ => Or.inl trivial)))⟩

instance : IsTrans GKey gkeyLe :=
  ⟨lexLe_trans _ _ (lexLe_trans _ _ (lexLe_trans _ _ (lexLe_trans _ _
    fun _ _ _ _ _ => trivial)))⟩

/-- `sort_values(["snapshot_date", "market", "best_rank", "total_score"],
ascending=[True, True, True, False])`. -/
def silverSortLe : SilverRow → SilverRow → Prop :=
  lexLe (·.snapshot_date) (lexLe (fun s => s.market.data) (lexLe (·.best_rank)
    (fun a b => b.total_score ≤ a.total_score)))

instance : DecidableRel silverSortLe := by unfold silverSortLe; infer_instance

instance : IsTotal SilverRow silverSortLe :=
  ⟨lexLe_total _ _ (lexLe_total _ _ (lexLe_total _ _ fun a b =>
    le_total b.total_score a.total_score))⟩

instance : IsTrans SilverRow silverSortLe :=
  ⟨lexLe_trans _ _ (lexLe_trans _ _ (lexLe_trans _ _ fun _ _ _ h1 h2 =>
    le_trans h2 h1))⟩

/-- `agg(best_rank=("rank", "min"))` over the ranks of one group (groups are
never empty; the `[]` case is unreachable). -/
def minRanks : List Nat → Nat
  | [] => 0
  | r :: rs => rs.foldl Nat.min r

/-- The members of one group. -/
def groupOf (ex : List ExplodedRow) (k : GKey) : List ExplodedRow :=
  ex.filter fun e => gkey e = k

/-- The aggregation of one group of `bronze_to_silver`:
`tracks` = `nunique` of `track_id`, `total_score` = `sum` of `score` (pandas
`sum` skips absent values and sums an all-absent group to `0`, the
`min_count=0` default), `best_rank` = `min` of `rank`. -/
def aggGroup (k : GKey) (members : List ExplodedRow) : SilverRow :=
  { snapshot_date := k.1, market := k.2.1, artist_id := k.2.2.1,
    artist_name := k.2.2.2,
    tracks := (members.map (·.track_id)).dedup.length,
    total_score := (members.map fun e => e.score.getD 0).sum,
    best_rank := minRanks (members.map (·.rank)) }

/-- `transform.bronze_to_silver`.  The `empty` early returns of the source
coincide with the behaviour of the model on empty lists, and the trailing
`to_numeric(...).astype("Int64")` conversions and column selection are
identities on the typed rows built here. -/
def bronze_to_silver (rows : List BronzeRow) : List SilverRow :=
  let ex := explode rows
  let keys := List.insertionSort gkeyLe (ex.map gkey).dedup
  let grouped := keys.map fun k => aggGroup k (groupOf ex k)
  List.insertionSort silverSortLe grouped

/-- Group key of `silver_to_gold`:
`["snapshot_date", "artist_id", "artist_name"]`. -/
abbrev GoldKey := Nat × String × String

def goldKey (s : SilverRow) : GoldKey :=
  (s.snapshot_date, s.artist_id, s.artist_name)

def goldKeyLe : GoldKey → GoldKey → Prop :=
  lexLe (·.1) (lexLe (fun k => k.2.1.data)
    (lexLe (fun k => k.2.2.data) fun _ _ => True))

instance : DecidableRel goldKeyLe := by unfold goldKeyLe; infer_instance

instance : IsTotal GoldKey goldKeyLe :=
  ⟨lexLe_total _ _ (lexLe_total _ _ (lexLe_total _ _
    fun _ _ => Or.inl trivial))⟩

instance : IsTrans GoldKey goldKeyLe :=
  ⟨lexLe_trans _ _ (lexLe_trans _ _ (lexLe_trans _ _
    fun _ _ _ _ _ => trivial))⟩

/-- `sort_values(["snapshot_date", "best_rank", "total_score"],
ascending=[True, True, False])`. -/
def goldSortLe : GoldRow → GoldRow → Prop :=
  lexLe (·.snapshot_date) (lexLe (·.best_rank)
    (fun a b => b.total_score ≤ a.total_score))

instance : DecidableRel goldSortLe := by unfold goldSortLe; infer_instance

instance : IsTotal GoldRow goldSortLe :=
  ⟨lexLe_total _ _ (lexLe_total _ _ fun a b =>
    le_total b.total_score a.total_score)⟩

instance : IsTrans GoldRow goldSortLe :=
  ⟨lexLe_trans _ _ (lexLe_trans _ _ fun _ _ _ h1 h2 => le_trans h2 h1)⟩

/-- The aggregation of one group of `silver_to_gold`:
`markets` = `nunique` of `market`, `total_score` = `sum` of `total_score`,
`best_rank` = `min` of `best_rank`. -/
def aggGold (k : GoldKey) (members : List SilverRow) : GoldRow :=
  { snapshot_date := k.1, artist_id := k.2.1, artist_name := k.2.2,
    markets := (members.map (·.market)).dedup.length,
    total_score := (members.map (·.total_score)).sum,
    best_rank := minRanks (members.map (·.best_rank)) }

/-- `transform.silver_to_gold` (the sort is applied directly after the
aggregation; the trailing dtype conversions and the column selection do not
reorder rows). -/
def silver_to_gold (rows : List SilverRow) : List GoldRow :=
  let keys := List.insertionSort goldKeyLe (rows.map goldKey).dedup
  let grouped := keys.map fun k =>
    aggGold k (rows.filter fun s => goldKey s = k)
  List.insertionSort goldSortLe grouped

/-! ### The fetch layer retry loop (`ETL/spotify.py`, `SpotifyClient._request`)

The loop is a function of the sequence of HTTP responses the server returns
for the repeated attempts at one request.  The response body is an abstract
token (`Nat`). -/

structure HttpResponse where
  status : Nat
  body : Nat
deriving DecidableEq, Repr

/-- Outcome of the `while True` loop of `_request` on a finite response
script.  `refreshes` counts the `_invalidate_token(); _ensure_token()` cycles
performed.  `pending` means the script ran out while the loop was still
going: the code would issue yet another attempt. -/
inductive RequestResult where
  | ok (body : Nat) (refreshes : Nat)
  | httpError (status : Nat) (refreshes : Nat)
  | pending (refreshes : Nat)
deriving DecidableEq, Repr

/-- The body of `_request`: on 401 invalidate and refresh the token and
re-enter the loop; on 429 sleep and re-enter the loop; otherwise
`raise_for_status()` (an error for status ≥ 400) or return the body. -/
def requestLoop (refreshes : Nat) : List HttpResponse → RequestResult
  | [] => .pending refreshes
  | r :: rest =>
      if r.status = 401 then requestLoop (refreshes + 1) rest
      else if r.status = 429 then requestLoop refreshes rest
      else if 400 ≤ r.status then .httpError r.status refreshes
      else .ok r.body refreshes

/-- `_request` starts the loop with the cached token and no reactive
refresh performed yet. -/
def request (responses : List HttpResponse) : RequestResult :=
  requestLoop 0 responses

/-! ### The orchestrator (`ETL/main.py`, `run`)

Network results are scripted inputs: each configured playlist target
contributes one `PlaylistFetch` (the outcome of the fetch loop over its
candidate markets), and each configured fallback artist contributes one
`ArtistFetch`.

Modelled from the spec: `settings.artists`, `settings.default_market`,
`client.search_artist` and `client.fetch_artist_top_tracks` are referenced by
`main.py` but are not defined under `src/`; following the spec they are the
configured artist-name fallback list and the secondary per-artist top-track
fetch path, modelled here as the scripted `ArtistFetch` outcomes (an empty
script = no fallback source configured). -/

/-- Outcome of the per-target fetch loop (`main.py` lines 52-92): either every
candidate market failed (the constructed failure message is recorded), or a
playlist with its items was fetched.  `market` is the
`dataset_market` of the target. -/
inductive PlaylistFetch where
  | failed (msg : String)
  | ok (items : List RawItem) (market : String) (playlist_id : String)
      (playlist_name : String)
deriving DecidableEq, Repr

/-- Accumulator of the run: collected non-empty bronze frames and recorded
per-target error messages, in order. -/
abbrev RunAcc := List (List BronzeRow) × List String

/-- One iteration of the playlist loop: a failed target records its message;
a fetched playlist is normalized, an empty frame is skipped with a warning
(nothing recorded), a non-empty frame is collected. -/
def playlistStep (snapshot_date : Nat) (acc : RunAcc) (t : PlaylistFetch) :
    RunAcc :=
  match t with
  | .failed msg => (acc.1, acc.2 ++ [msg])
  | .ok items market playlist_id playlist_name =>
      let frame := playlist_to_bronze items market playlist_id playlist_name
        snapshot_date
      if frame.isEmpty then acc else (acc.1 ++ [frame], acc.2)

def playlistPhase (snapshot_date : Nat) (targets : List PlaylistFetch) :
    RunAcc :=
  targets.foldl (playlistStep snapshot_date) ([], [])

/-- Outcome of the per-artist fallback fetch (`main.py` lines 135-161):
search miss, top-tracks fetch error, or the fetched top-track list (possibly
empty). -/
inductive ArtistFetch where
  | notFound (artist_name : String)
  | fetchFailed (artist_name : String) (artist_id : String)
  | ok (artist_name : String) (artist_id : String) (tracks : List RawTrack)
deriving DecidableEq, Repr

/-- The recorded messages of the artist fallback loop (modelled without the
quotation marks the source puts around names). -/
def artistMsgNotFound (artist_name : String) : String :=
  "Artist " ++ artist_name ++ " not found."

def artistMsgFetchFailed (artist_name artist_id : String) : String :=
  "Failed to fetch top tracks for artist " ++ artist_name ++ " (" ++
    artist_id ++ ")."

def artistMsgNoTracks (artist_name artist_id : String) : String :=
  "No top tracks returned for artist " ++ artist_name ++ " (" ++
    artist_id ++ ")."

def artistMsgEmptyFrame (artist_name : String) : String :=
  "Artist " ++ artist_name ++ " returned no bronze rows after transformation."

/-- One iteration of the artist fallback loop (`main.py` lines 135-177).
`fallback_market` is the dataset market of the first playlist target (or the
default market). -/
def artistStep (snapshot_date : Nat) (fallback_market : String)
    (acc : RunAcc) (a : ArtistFetch) : RunAcc :=
  match a with
  | .notFound n => (acc.1, acc.2 ++ [artistMsgNotFound n])
  | .fetchFailed n aid => (acc.1, acc.2 ++ [artistMsgFetchFailed n aid])
  | .ok n aid tracks =>
      if tracks.isEmpty then (acc.1, acc.2 ++ [artistMsgNoTracks n aid])
      else
        let frame := top_tracks_to_bronze tracks fallback_market
          ("artist:" ++ aid ++ ":top") ("Top Tracks - " ++ n) snapshot_date
        if frame.isEmpty then (acc.1, acc.2 ++ [artistMsgEmptyFrame n])
        else (acc.1 ++ [frame], acc.2)

/-- The collected frames and errors after both phases: the artist fallback
runs only when the playlist phase collected no frames and a fallback source
is configured (`if not bronze_frames and settings.artists:`). -/
def pipelineAcc (snapshot_date : Nat) (fallback_market : String)
    (playlists : List PlaylistFetch) (artists : List ArtistFetch) : RunAcc :=
  if (playlistPhase snapshot_date playlists).1.isEmpty ∧ artists ≠ [] then
    artists.foldl (artistStep snapshot_date fallback_market)
      (playlistPhase snapshot_date playlists)
  else playlistPhase snapshot_date playlists

/-- Terminal state of `run`: the `RuntimeError` raised at `main.py` lines
179-184, or the data handed to the sink. -/
inductive RunOutcome where
  | failed (msg : String)
  | succeeded (bronze : List BronzeRow) (silver : List SilverRow)
      (gold : List GoldRow)
deriving DecidableEq, Repr

/-- The message of the aggregate `RuntimeError`:
`"; ".join(errors)`, or the default text when nothing was recorded. -/
def failureMessage (errors : List String) : String :=
  if errors.isEmpty then "No playlist or artist data retrieved; aborting run."
  else String.intercalate "; " errors

/-- `main.run`, as a function of the scripted fetch outcomes: collect bronze
frames and errors, fail when no frame was collected, otherwise concatenate
the frames (`pd.concat`) and aggregate. -/
def run (snapshot_date : Nat) (fallback_market : String)
    (playlists : List PlaylistFetch) (artists : List ArtistFetch) :
    RunOutcome :=
  if (pipelineAcc snapshot_date fallback_market playlists artists).1.isEmpty
  then
    .failed (failureMessage
      (pipelineAcc snapshot_date fallback_market playlists artists).2)
  else
    .succeeded
      (pipelineAcc snapshot_date fallback_market playlists artists).1.flatten
      (bronze_to_silver
        (pipelineAcc snapshot_date fallback_market playlists
          artists).1.flatten)
      (silver_to_gold (bronze_to_silver
        (pipelineAcc snapshot_date fallback_market playlists
          artists).1.flatten))

/-! ### Lemmas about the bronze normalizer -/

theorem resolvedTrackId_spec {t : RawTrack} {tid : String}
    (h : resolvedTrackId t = some tid) : t.id = some tid ∧ tid ≠ "" := by
  unfold resolvedTrackId at h
  cases hid : t.id with
  | none => rw [hid] at h; cases h
  | some s =>
      rw [hid] at h
      by_cases hs : s = ""
      · simp [hs] at h
      · simp [hs] at h; exact ⟨by rw [h], h ▸ hs⟩

theorem bronzeRowOfTrack_spec {market playlist_id playlist_name : String}
    {snapshot_date rank : Nat} {t : RawTrack} {r : BronzeRow}
    (h : bronzeRowOfTrack market playlist_id playlist_name snapshot_date rank t
      = some r) :
    r.rank = rank ∧ resolvedTrackId t = some r.track_id ∧ r.track_id ≠ "" ∧
      r.score = t.popularity ∧ r.artist_ids = artistIdsOf t.artists ∧
      r.artist_names = artistNamesOf t.artists := by
  cases hid : resolvedTrackId t with
  | none => simp only [bronzeRowOfTrack, hid] at h; cases h
  | some tid =>
      simp only [bronzeRowOfTrack, hid, Option.some.injEq] at h
      subst h
      exact ⟨rfl, by simp [hid], (resolvedTrackId_spec hid).2, rfl, rfl,
        rfl⟩

/-- Workhorse: every row produced by the playlist loop comes from the input
entry at its own (1-based, counted from `rank0`) position, and that entry
resolves to exactly the track of the row. -/
theorem mem_playlistRows {market playlist_id playlist_name : String}
    {snapshot_date : Nat} (rank0 : Nat) (items : List RawItem) :
    ∀ r ∈ playlistRows market playlist_id playlist_name snapshot_date rank0
      items,
      rank0 ≤ r.rank ∧ r.rank - rank0 < items.length ∧
      ∃ it t, items[r.rank - rank0]? = some it ∧ it.track = some t ∧
        bronzeRowOfTrack market playlist_id playlist_name snapshot_date r.rank
          t = some r := by
  induction items generalizing rank0 with
  | nil => intro r hr; cases hr
  | cons item rest ih =>
      intro r hr
      have step :
          r ∈ playlistRows market playlist_id playlist_name snapshot_date
            (rank0 + 1) rest →
          rank0 ≤ r.rank ∧ r.rank - rank0 < (item :: rest).length ∧
          ∃ it t, (item :: rest)[r.rank - rank0]? = some it ∧
            it.track = some t ∧
            bronzeRowOfTrack market playlist_id playlist_name snapshot_date
              r.rank t = some r := by
        intro htail
        obtain ⟨hle, hlt, it, t, hget, htrack, hrow⟩ := ih (rank0 + 1) r htail
        refine ⟨by omega, by simp; omega, it, t, ?_, htrack, hrow⟩
        have hidx : r.rank - rank0 = (r.rank - (rank0 + 1)) + 1 := by omega
        rw [hidx, List.getElem?_cons_succ]
        exact hget
      cases htr : item.track with
      | none =>
          simp only [playlistRows, htr] at hr
          exact step hr
      | some t =>
          cases hrow : bronzeRowOfTrack market playlist_id playlist_name
            snapshot_date rank0 t with
          | none =>
              simp only [playlistRows, htr, hrow] at hr
              exact step hr
          | some row =>
              simp only [playlistRows, htr, hrow] at hr
              rcases List.mem_cons.mp hr with hhead | htail
              · subst hhead
                have hrk := (bronzeRowOfTrack_spec hrow).1
                refine ⟨le_of_eq hrk.symm, by simp [hrk], item, t, ?_, htr,
                  by rw [hrk]; exact hrow⟩
                simp [hrk]
              · exact step htail

/-- C5 instrumentation: the entries of `playlist_to_bronze`, described from
the input. -/
theorem mem_playlist_to_bronze {market playlist_id playlist_name : String}
    {snapshot_date : Nat} (items : List RawItem) :
    ∀ r ∈ playlist_to_bronze items market playlist_id playlist_name
      snapshot_date,
      1 ≤ r.rank ∧ r.rank ≤ items.length ∧
      ∃ it t, items[r.rank - 1]? = some it ∧ it.track = some t ∧
        bronzeRowOfTrack market playlist_id playlist_name snapshot_date r.rank
          t = some r := by
  intro r hr
  obtain ⟨hle, hlt, rest⟩ := mem_playlistRows 1 items r hr
  exact ⟨hle, by omega, rest⟩

theorem artist_lists_aligned (artists : List RawArtist)
    (h : allArtistsComplete artists) :
    (artistIdsOf artists).length = (artistNamesOf artists).length ∧
    (artistIdsOf artists).zip (artistNamesOf artists) =
      artists.map fun a => (a.id.getD "", a.name.getD "") := by
  induction artists with
  | nil => exact ⟨rfl, rfl⟩
  | cons a rest ih =>
      obtain ⟨⟨s, hs, hsne⟩, hname⟩ := h a (List.mem_cons_self a rest)
      have ihr := ih fun b hb => h b (List.mem_cons_of_mem a hb)
      cases hnm : a.name with
      | none => exact absurd hnm hname
      | some nm =>
          have hids : artistIdsOf (a :: rest) = s :: artistIdsOf rest := by
            simp [artistIdsOf, hs, hsne]
          have hnames : artistNamesOf (a :: rest) = nm :: artistNamesOf rest :=
            by simp [artistNamesOf, hnm]
          rw [hids, hnames, List.zip_cons_cons, List.map_cons]
          refine ⟨by simp [ihr.1], ?_⟩
          rw [ihr.2, hs, hnm]
          simp

theorem of_mem_zip_getElem {α β : Type} {p : α × β} :
    ∀ {l1 : List α} {l2 : List β}, p ∈ l1.zip l2 →
      ∃ i : Nat, l1[i]? = some p.1 ∧ l2[i]? = some p.2 := by
  intro l1
  induction l1 with
  | nil => intro l2 h; simp [List.zip] at h
  | cons a as ih =>
      intro l2 h
      cases l2 with
      | nil => simp [List.zip] at h
      | cons b bs =>
          rcases List.mem_cons.mp (by simpa using h) with he | hm
          · exact ⟨0, by simp [he], by simp [he]⟩
          · obtain ⟨i, h1, h2⟩ := ih hm
            exact ⟨i + 1, by simpa using h1, by simpa using h2⟩

/-! ### Lemmas about the aggregator -/

/-- Every silver row is the aggregation of a non-trivial group: its artist id
and name come from some exploded row. -/
theorem mem_bronze_to_silver (rows : List BronzeRow) :
    ∀ s ∈ bronze_to_silver rows, ∃ e ∈ explode rows,
      e.artist_id = s.artist_id ∧ e.artist_name = s.artist_name := by
  intro s hs
  simp only [bronze_to_silver] at hs
  have hs1 := (List.perm_insertionSort silverSortLe _).mem_iff.mp hs
  obtain ⟨k, hk, hks⟩ := List.mem_map.mp hs1
  have hk2 : k ∈ (explode rows).map gkey :=
    List.mem_dedup.mp ((List.perm_insertionSort gkeyLe _).mem_iff.mp hk)
  obtain ⟨e, he, hke⟩ := List.mem_map.mp hk2
  refine ⟨e, he, ?_, ?_⟩
  · rw [← hks, ← hke]; rfl
  · rw [← hks, ← hke]; rfl

/-- Each exploded row records, at one common position of the two artist
lists, the id and the name of its bronze row. -/
theorem mem_explode {rows : List BronzeRow} {e : ExplodedRow}
    (h : e ∈ explode rows) :
    ∃ r ∈ rows, ∃ i : Nat, r.artist_ids[i]? = some e.artist_id ∧
      r.artist_names[i]? = some e.artist_name := by
  simp only [explode] at h
  obtain ⟨l, hl, hel⟩ := List.mem_flatten.mp h
  obtain ⟨r, hr, hlr⟩ := List.mem_map.mp hl
  rw [← hlr] at hel
  have hel' : ∃ a b, (a, b) ∈ r.artist_ids.zip r.artist_names ∧
      ({ snapshot_date := r.snapshot_date, market := r.market, artist_id := a,
         artist_name := b, track_id := r.track_id, score := r.score,
         rank := r.rank } : ExplodedRow) = e := by
    simpa [explodeRow] using hel
  obtain ⟨a, b, hp, hpe⟩ := hel'
  obtain ⟨i, h1, h2⟩ := of_mem_zip_getElem hp
  exact ⟨r, hr, i, by rw [← hpe]; exact h1, by rw [← hpe]; exact h2⟩

/-! ### Lemmas about the orchestrator -/

theorem foldl_playlistStep_frames (d : Nat) (ts : List PlaylistFetch) :
    ∀ acc : RunAcc, (∀ f ∈ acc.1, f ≠ []) →
      ∀ f ∈ (ts.foldl (playlistStep d) acc).1, f ≠ [] := by
  induction ts with
  | nil => intro acc h; exact h
  | cons t ts ih =>
      intro acc h
      refine ih _ ?_
      cases t with
      | failed m => simpa [playlistStep] using h
      | ok items mkt pid pname =>
          by_cases hemp : (playlist_to_bronze items mkt pid pname d).isEmpty
          · simpa [playlistStep, hemp] using h
          · intro f hf
            have hf' : f ∈ acc.1 ∨
                f = playlist_to_bronze items mkt pid pname d := by
              simpa [playlistStep, hemp] using hf
            rcases hf' with hf1 | hf2
            · exact h f hf1
            · rw [hf2]
              intro hnil
              rw [hnil] at hemp
              exact hemp rfl

theorem foldl_artistStep_frames (d : Nat) (fm : String)
    (as : List ArtistFetch) :
    ∀ acc : RunAcc, (∀ f ∈ acc.1, f ≠ []) →
      ∀ f ∈ (as.foldl (artistStep d fm) acc).1, f ≠ [] := by
  induction as with
  | nil => intro acc h; exact h
  | cons a as ih =>
      intro acc h
      refine ih _ ?_
      cases a with
      | notFound n => simpa [artistStep] using h
      | fetchFailed n aid => simpa [artistStep] using h
      | ok n aid tracks =>
          by_cases htr : tracks.isEmpty
          · simpa [artistStep, htr] using h
          · by_cases hemp : (top_tracks_to_bronze tracks fm
              ("artist:" ++ aid ++ ":top") ("Top Tracks - " ++ n) d).isEmpty
            · simpa [artistStep, htr, hemp] using h
            · intro f hf
              have hf' : f ∈ acc.1 ∨ f = top_tracks_to_bronze tracks fm
                  ("artist:" ++ aid ++ ":top") ("Top Tracks - " ++ n) d := by
                simpa [artistStep, htr, hemp] using hf
              rcases hf' with hf1 | hf2
              · exact h f hf1
              · rw [hf2]
                intro hnil
                rw [hnil] at hemp
                exact hemp rfl

/-- Only non-empty bronze frames are ever collected. -/
theorem pipelineAcc_frames (d : Nat) (fm : String) (pls : List PlaylistFetch)
    (arts : List ArtistFetch) :
    ∀ f ∈ (pipelineAcc d fm pls arts).1, f ≠ [] := by
  have hpl : ∀ f ∈ (playlistPhase d pls).1, f ≠ [] :=
    foldl_playlistStep_frames d pls ([], []) (by simp)
  unfold pipelineAcc
  split
  · exact foldl_artistStep_frames d fm arts _ hpl
  · exact hpl

/-- Zero bronze rows produced is the same as no frame collected. -/
theorem pipeline_flatten_nil_iff (d : Nat) (fm : String)
    (pls : List PlaylistFetch) (arts : List ArtistFetch) :
    (pipelineAcc d fm pls arts).1.flatten = [] ↔
      (pipelineAcc d fm pls arts).1 = [] := by
  constructor
  · intro h
    have hall := List.flatten_eq_nil_iff.mp h
    cases hacc : (pipelineAcc d fm pls arts).1 with
    | nil => rfl
    | cons f fs =>
        have hne : f ≠ [] := pipelineAcc_frames d fm pls arts f
          (by rw [hacc]; exact List.mem_cons_self f fs)
        exact absurd (hall f (by rw [hacc]; exact List.mem_cons_self f fs)) hne
  · intro h
    rw [h]
    rfl

/-! ### Lemmas about the request loop -/

theorem requestLoop_replicate_401 (n k b : Nat) (l : List HttpResponse) :
    requestLoop k (List.replicate n ⟨401, b⟩ ++ l) = requestLoop (k + n) l := by
  induction n generalizing k with
  | zero => simp
  | succ n ih =>
      rw [List.replicate_succ, List.cons_append]
      have hstep : requestLoop k (⟨401, b⟩ :: (List.replicate n ⟨401, b⟩ ++ l))
          = requestLoop (k + 1) (List.replicate n ⟨401, b⟩ ++ l) := by
        simp [requestLoop]
      rw [hstep, ih]
      congr 1
      omega

/-! ### The claims -/

/-- C1, counterexample.  The claim says a 401 causes one token invalidation
and one retry, and a second consecutive 401 is fatal.  On the response script
401, 401, 200 the loop of `_request` instead refreshes the token twice,
retries a second time and returns the body: no fatal outcome after the
retried request failed with 401 again. -/
theorem C1_counterexample :
    request [⟨401, 0⟩, ⟨401, 0⟩, ⟨200, 7⟩] = RequestResult.ok 7 2 := by decide

/-- C1, amended.  Every 401 response invalidates and refreshes the cached
token and the request is retried, with no bound on the number of retries and
no fatal authorization outcome: after any number `n` of consecutive 401
responses the first non-401, non-429 response decides the request (an error
for status ≥ 400, the body otherwise), having performed `n` token refreshes;
a script of only 401 responses leaves the loop still running. -/
theorem C1_unbounded_401_retries (k n b : Nat) (r : HttpResponse)
    (rest : List HttpResponse) (h1 : r.status ≠ 401) (h2 : r.status ≠ 429) :
    requestLoop k (List.replicate n ⟨401, b⟩ ++ r :: rest) =
      (if 400 ≤ r.status then RequestResult.httpError r.status (k + n)
       else RequestResult.ok r.body (k + n)) ∧
    requestLoop k (List.replicate n ⟨401, b⟩) =
      RequestResult.pending (k + n) := by
  constructor
  · rw [requestLoop_replicate_401]
    simp [requestLoop, h1, h2]
  · have h := requestLoop_replicate_401 n k b []
    rw [List.append_nil] at h
    rw [h]
    rfl

/-- C1, witness for the amended theorem at a concrete script: five 401
responses then a 200. -/
theorem C1_witness :
    requestLoop 0 (List.replicate 5 ⟨401, 0⟩ ++ ⟨200, 7⟩ :: []) =
      (if 400 ≤ (200 : Nat) then RequestResult.httpError 200 (0 + 5)
       else RequestResult.ok 7 (0 + 5)) ∧
    requestLoop 0 (List.replicate 5 ⟨401, 0⟩) =
      RequestResult.pending (0 + 5) :=
  C1_unbounded_401_retries 0 5 0 ⟨200, 7⟩ [] (by decide) (by decide)

/-- C2.  Scenario A: two bronze rows for market US on one date, ranks 1 and 2,
tracks t1 and t2, both by artist a1, scores 50 and 49, aggregate to exactly
one silver record with tracks 2, totalScore 99, bestRank 1. -/
theorem C2_scenario_A :
    bronze_to_silver
      [{ snapshot_date := 0, market := "US", playlist_id := "p",
         playlist_name := "pl", rank := 1, track_id := "t1",
         track_name := none, artist_ids := ["a1"], artist_names := ["A"],
         score := some 50 },
       { snapshot_date := 0, market := "US", playlist_id := "p",
         playlist_name := "pl", rank := 2, track_id := "t2",
         track_name := none, artist_ids := ["a1"], artist_names := ["A"],
         score := some 49 }] =
    [{ snapshot_date := 0, market := "US", artist_id := "a1",
       artist_name := "A", tracks := 2, total_score := 99,
       best_rank := 1 }] := by decide

/-- C3, counterexample.  `bronze_to_silver` groups by the quadruple including
`artist_name`: when the same artist id appears under two names, two silver
records share the triple (snapshotDate, market, artistId), so the triple is
not a key of the output. -/
theorem C3_counterexample :
    (bronze_to_silver
      [{ snapshot_date := 0, market := "US", playlist_id := "p",
         playlist_name := "pl", rank := 1, track_id := "t1",
         track_name := none, artist_ids := ["a1"], artist_names := ["A"],
         score := some 10 },
       { snapshot_date := 0, market := "US", playlist_id := "p",
         playlist_name := "pl", rank := 2, track_id := "t2",
         track_name := none, artist_ids := ["a1"], artist_names := ["B"],
         score := some 9 }]).map
      (fun s => (s.snapshot_date, s.market, s.artist_id)) =
    [(0, "US", "a1"), (0, "US", "a1")] := by decide

/-- C3, amended.  In every output of `bronze_to_silver` the quadruple
(snapshotDate, market, artistId, artistName) is a key: no two silver records
share all four fields.  (The triple without the name is a key only when every
artist id carries a single name.) -/
theorem C3_quadruple_key (rows : List BronzeRow) :
    ((bronze_to_silver rows).map fun s =>
      (s.snapshot_date, s.market, s.artist_id, s.artist_name)).Nodup := by
  simp only [bronze_to_silver]
  have hperm := (List.perm_insertionSort silverSortLe
    ((List.insertionSort gkeyLe ((explode rows).map gkey).dedup).map fun k =>
      aggGroup k (groupOf (explode rows) k))).map
    (fun s : SilverRow => (s.snapshot_date, s.market, s.artist_id,
      s.artist_name))
  refine hperm.nodup_iff.mpr ?_
  rw [List.map_map]
  have hid : ((fun s : SilverRow => (s.snapshot_date, s.market, s.artist_id,
      s.artist_name)) ∘ fun k => aggGroup k (groupOf (explode rows) k)) =
      id := funext fun k => rfl
  rw [hid, List.map_id]
  exact (List.perm_insertionSort gkeyLe _).nodup_iff.mpr
    (List.nodup_dedup _)

/-- C4, counterexample.  The normalizer filters artist ids (truthy) and
artist names (non-None) independently: an artist object with a missing id but
a present name "X" next to an artist with id "a2" and name "Y" produces a
bronze record with `artist_ids = ["a2"]` but `artist_names = ["X", "Y"]` —
the lists differ in length and the first name "X" is not the name of the
artist whose id is first. -/
theorem C4_counterexample :
    (playlist_to_bronze
      [⟨some ⟨some "t1", none, [⟨none, some "X"⟩, ⟨some "a2", some "Y"⟩],
        none⟩⟩] "US" "p" "pl" 0).map
      (fun r => (r.artist_ids, r.artist_names)) =
    [(["a2"], ["X", "Y"])] := by decide

/-- C4, amended.  In every bronze record, `artist_ids` lists, in artist order,
the truthy ids of the artists of the source track and `artist_names` the
present names; when every artist of the track has both a truthy id and a present
name, the two lists have the same length and the pairs align positionally
(the i-th name is the name of the artist whose id is the i-th id). -/
theorem C4_artist_alignment (items : List RawItem)
    (market playlist_id playlist_name : String) (snapshot_date : Nat) :
    ∀ r ∈ playlist_to_bronze items market playlist_id playlist_name
      snapshot_date,
      ∃ t : RawTrack, (∃ it ∈ items, it.track = some t) ∧
        r.artist_ids = artistIdsOf t.artists ∧
        r.artist_names = artistNamesOf t.artists ∧
        (allArtistsComplete t.artists →
          r.artist_ids.length = r.artist_names.length ∧
          r.artist_ids.zip r.artist_names =
            t.artists.map fun a => (a.id.getD "", a.name.getD "")) := by
  intro r hr
  obtain ⟨_, _, it, t, hget, htrack, hrow⟩ := mem_playlist_to_bronze items r hr
  obtain ⟨_, _, _, _, hids, hnames⟩ := bronzeRowOfTrack_spec hrow
  refine ⟨t, ⟨it, List.getElem?_mem hget, htrack⟩, hids, hnames, ?_⟩
  intro hall
  have hal := artist_lists_aligned t.artists hall
  rw [hids, hnames]
  exact ⟨hal.1, hal.2⟩

/-- C4, witness for the amended theorem: a track whose single artist has both
id and name. -/
theorem C4_witness :
    ∃ t : RawTrack,
      (∃ it ∈ [(⟨some ⟨some "t1", none, [⟨some "a1", some "A"⟩], some 5⟩⟩ :
        RawItem)], it.track = some t) ∧
      (["a1"] : List String) = artistIdsOf t.artists ∧
      (["A"] : List String) = artistNamesOf t.artists ∧
      (allArtistsComplete t.artists →
        (["a1"] : List String).length = (["A"] : List String).length ∧
        (["a1"] : List String).zip (["A"] : List String) =
          t.artists.map fun a => (a.id.getD "", a.name.getD "")) :=
  C4_artist_alignment
    [⟨some ⟨some "t1", none, [⟨some "a1", some "A"⟩], some 5⟩⟩]
    "US" "p" "pl" 0
    { snapshot_date := 0, market := "US", playlist_id := "p",
      playlist_name := "pl", rank := 1, track_id := "t1", track_name := none,
      artist_ids := ["a1"], artist_names := ["A"], score := some 5 }
    (by decide)

/-- C5.  The rank of every kept record is the 1-based position of its entry in the
input sequence (the entry at position rank − 1 resolves to exactly the
track id of the record); an entry with no resolvable track identity yields no
record at that position; and no record ever lacks a track id (the id is never
empty). -/
theorem C5_rank_and_filtering (items : List RawItem)
    (market playlist_id playlist_name : String) (snapshot_date : Nat) :
    (∀ r ∈ playlist_to_bronze items market playlist_id playlist_name
        snapshot_date,
      1 ≤ r.rank ∧ r.rank ≤ items.length ∧
      (∃ it, items[r.rank - 1]? = some it ∧
        resolvableId it = some r.track_id) ∧
      r.track_id ≠ "") ∧
    (∀ (i : Nat) (it : RawItem), items[i]? = some it →
      resolvableId it = none →
      ∀ r ∈ playlist_to_bronze items market playlist_id playlist_name
        snapshot_date, r.rank ≠ i + 1) := by
  constructor
  · intro r hr
    obtain ⟨h1, h2, it, t, hget, htrack, hrow⟩ :=
      mem_playlist_to_bronze items r hr
    obtain ⟨_, hres, hne, _⟩ := bronzeRowOfTrack_spec hrow
    exact ⟨h1, h2, ⟨it, hget, by simp [resolvableId, htrack, hres]⟩, hne⟩
  · intro i it hget hnone r hr hrank
    obtain ⟨h1, h2, it2, t, hget2, htrack, hrow⟩ :=
      mem_playlist_to_bronze items r hr
    obtain ⟨_, hres, _, _⟩ := bronzeRowOfTrack_spec hrow
    have hidx : r.rank - 1 = i := by omega
    rw [hidx, hget] at hget2
    cases hget2
    simp [resolvableId, htrack, hres] at hnone

/-- C5, witness: the first entry has no resolvable track id, the second is a
valid track; the produced record for the second entry has rank 2, and no
record has rank 1. -/
theorem C5_witness :
    ({ snapshot_date := 0, market := "US", playlist_id := "p",
       playlist_name := "pl", rank := 2, track_id := "t2", track_name := none,
       artist_ids := [], artist_names := [],
       score := none } : BronzeRow).rank ≠ 0 + 1 :=
  (C5_rank_and_filtering
    [⟨some ⟨none, none, [], some 3⟩⟩, ⟨some ⟨some "t2", none, [], none⟩⟩]
    "US" "p" "pl" 0).2 0 ⟨some ⟨none, none, [], some 3⟩⟩ (by decide)
    (by decide)
    { snapshot_date := 0, market := "US", playlist_id := "p",
      playlist_name := "pl", rank := 2, track_id := "t2", track_name := none,
      artist_ids := [], artist_names := [], score := none }
    (by decide)

/-- C6.  The silver output is sorted by ascending snapshotDate, ascending
market, ascending bestRank, then descending totalScore; in particular any
two records with equal date, market and bestRank appear with the higher
totalScore first. -/
theorem C6_silver_ordering (rows : List BronzeRow) :
    List.Sorted silverSortLe (bronze_to_silver rows) ∧
    List.Pairwise (fun a b : SilverRow =>
      a.snapshot_date = b.snapshot_date → a.market = b.market →
        a.best_rank = b.best_rank → b.total_score ≤ a.total_score)
      (bronze_to_silver rows) := by
  have hs : List.Sorted silverSortLe (bronze_to_silver rows) := by
    simp only [bronze_to_silver]
    exact List.sorted_insertionSort silverSortLe _
  refine ⟨hs, hs.imp ?_⟩
  intro a b hab e1 e2 e3
  simp only [silverSortLe, lexLe] at hab
  rcases hab with h | ⟨_, h | ⟨_, h | ⟨_, h⟩⟩⟩
  · rw [e1] at h; exact absurd h (lt_irrefl _)
  · rw [e2] at h; exact absurd h (lt_irrefl _)
  · rw [e3] at h; exact absurd h (lt_irrefl _)
  · exact h

/-- C7, counterexample.  The claim says a group in which every score is
absent is not converted into a present 0.  But `bronze_to_silver` of a single
row with an absent score equals `bronze_to_silver` of the same row with
score 0: the all-absent group receives the present totalScore 0 and is
indistinguishable from a true zero in silver. -/
theorem C7_counterexample :
    bronze_to_silver
      [{ snapshot_date := 0, market := "US", playlist_id := "p",
         playlist_name := "pl", rank := 1, track_id := "t1",
         track_name := none, artist_ids := ["a1"], artist_names := ["A"],
         score := none }] =
    bronze_to_silver
      [{ snapshot_date := 0, market := "US", playlist_id := "p",
         playlist_name := "pl", rank := 1, track_id := "t1",
         track_name := none, artist_ids := ["a1"], artist_names := ["A"],
         score := some 0 }] := by decide

/-- C7, amended.  A present popularity is carried into the bronze score (the
metric is integral, so rounding is the identity) and an absent popularity
stays absent at the bronze level; `bronze_to_silver` sums scores treating
absent as a 0 contribution, and a group whose every score is absent receives
the present totalScore 0 in silver (zero and absent are distinguishable at
the bronze level only). -/
theorem C7_scores (items : List RawItem)
    (market playlist_id playlist_name : String) (snapshot_date : Nat) :
    (∀ r ∈ playlist_to_bronze items market playlist_id playlist_name
        snapshot_date,
      ∃ it t, items[r.rank - 1]? = some it ∧ it.track = some t ∧
        r.score = t.popularity) ∧
    bronze_to_silver
      [{ snapshot_date := 0, market := "US", playlist_id := "p",
         playlist_name := "pl", rank := 1, track_id := "t1",
         track_name := none, artist_ids := ["a1"], artist_names := ["A"],
         score := some 50 },
       { snapshot_date := 0, market := "US", playlist_id := "p",
         playlist_name := "pl", rank := 2, track_id := "t2",
         track_name := none, artist_ids := ["a1"], artist_names := ["A"],
         score := none }] =
      [{ snapshot_date := 0, market := "US", artist_id := "a1",
         artist_name := "A", tracks := 2, total_score := 50,
         best_rank := 1 }] ∧
    bronze_to_silver
      [{ snapshot_date := 0, market := "US", playlist_id := "p",
         playlist_name := "pl", rank := 1, track_id := "t1",
         track_name := none, artist_ids := ["a1"], artist_names := ["A"],
         score := none }] =
      [{ snapshot_date := 0, market := "US", artist_id := "a1",
         artist_name := "A", tracks := 1, total_score := 0,
         best_rank := 1 }] := by
  refine ⟨?_, by decide, by decide⟩
  intro r hr
  obtain ⟨h1, h2, it, t, hget, htrack, hrow⟩ :=
    mem_playlist_to_bronze items r hr
  obtain ⟨_, _, _, hscore, _, _⟩ := bronzeRowOfTrack_spec hrow
  exact ⟨it, t, hget, htrack, hscore⟩

/-- C7, witness for the general part: a track with popularity 50 produces a
record with score 50 coming from its own entry. -/
theorem C7_witness :
    ∃ it t,
      ([(⟨some ⟨some "t1", none, [], some 50⟩⟩ : RawItem)])[0]? = some it ∧
      it.track = some t ∧ (some 50 : Option Int) = t.popularity :=
  (C7_scores [⟨some ⟨some "t1", none, [], some 50⟩⟩] "US" "p" "pl" 3).1
    { snapshot_date := 3, market := "US", playlist_id := "p",
      playlist_name := "pl", rank := 1, track_id := "t1", track_name := none,
      artist_ids := [], artist_names := [], score := some 50 }
    (by decide)

/-- C8.  The orchestrated run fails, raising the aggregate error built from
every recorded per-target failure reason, exactly when zero bronze rows were
produced across all targets and fallbacks; with at least one bronze row the
run succeeds, handing the concatenated bronze rows and their aggregations to
the sink. -/
theorem C8_run_outcome (d : Nat) (fm : String) (pls : List PlaylistFetch)
    (arts : List ArtistFetch) :
    (run d fm pls arts =
        RunOutcome.failed (failureMessage (pipelineAcc d fm pls arts).2) ↔
      (pipelineAcc d fm pls arts).1.flatten = []) ∧
    (∀ m, run d fm pls arts = RunOutcome.failed m →
      m = failureMessage (pipelineAcc d fm pls arts).2) ∧
    ((pipelineAcc d fm pls arts).1.flatten ≠ [] →
      run d fm pls arts = RunOutcome.succeeded
        (pipelineAcc d fm pls arts).1.flatten
        (bronze_to_silver (pipelineAcc d fm pls arts).1.flatten)
        (silver_to_gold (bronze_to_silver
          (pipelineAcc d fm pls arts).1.flatten))) := by
  have hiff := pipeline_flatten_nil_iff d fm pls arts
  by_cases hemp : (pipelineAcc d fm pls arts).1.isEmpty
  · have hnil : (pipelineAcc d fm pls arts).1 = [] :=
      List.isEmpty_iff.mp hemp
    have hrun : run d fm pls arts =
        RunOutcome.failed (failureMessage (pipelineAcc d fm pls arts).2) := by
      unfold run
      rw [if_pos hemp]
    refine ⟨⟨fun _ => hiff.mpr hnil, fun _ => hrun⟩, ?_, ?_⟩
    · intro m hm
      rw [hrun] at hm
      exact (RunOutcome.failed.inj hm).symm
    · intro hne
      exact absurd (hiff.mpr hnil) hne
  · have hnotnil : (pipelineAcc d fm pls arts).1 ≠ [] := fun h =>
      hemp (List.isEmpty_iff.mpr h)
    have hrun : run d fm pls arts = RunOutcome.succeeded
        (pipelineAcc d fm pls arts).1.flatten
        (bronze_to_silver (pipelineAcc d fm pls arts).1.flatten)
        (silver_to_gold (bronze_to_silver
          (pipelineAcc d fm pls arts).1.flatten)) := by
      unfold run
      rw [if_neg hemp]
    refine ⟨⟨fun habs => ?_, fun hflat => absurd (hiff.mp hflat) hnotnil⟩,
      ?_, fun _ => hrun⟩
    · rw [hrun] at habs
      exact RunOutcome.noConfusion habs
    · intro m hm
      rw [hrun] at hm
      exact RunOutcome.noConfusion hm

/-- C8, witness: one failed playlist target, no fallback artists — the run
fails with the aggregate message. -/
theorem C8_witness :
    run 0 "US" [PlaylistFetch.failed "boom"] [] =
      RunOutcome.failed (failureMessage
        (pipelineAcc 0 "US" [PlaylistFetch.failed "boom"] []).2) :=
  (C8_run_outcome 0 "US" [PlaylistFetch.failed "boom"] []).1.mpr (by decide)

/-- C9.  Both aggregation stages are deterministic pure functions: identical
input lists (same records in the same order) give identical output, with no
hidden state and no I/O — witnessed by the fact that both stages embed as
plain functions of their input list. -/
theorem C9_determinism :
    (∀ b1 b2 : List BronzeRow, b1 = b2 →
      bronze_to_silver b1 = bronze_to_silver b2) ∧
    (∀ s1 s2 : List SilverRow, s1 = s2 →
      silver_to_gold s1 = silver_to_gold s2) :=
  ⟨fun _ _ h => congrArg bronze_to_silver h,
   fun _ _ h => congrArg silver_to_gold h⟩

/-- C9, witness at concrete inputs. -/
theorem C9_witness :
    bronze_to_silver
      [{ snapshot_date := 0, market := "US", playlist_id := "p",
         playlist_name := "pl", rank := 1, track_id := "t1",
         track_name := none, artist_ids := ["a1"], artist_names := ["A"],
         score := some 50 }] =
    bronze_to_silver
      [{ snapshot_date := 0, market := "US", playlist_id := "p",
         playlist_name := "pl", rank := 1, track_id := "t1",
         track_name := none, artist_ids := ["a1"], artist_names := ["A"],
         score := some 50 }] ∧
    silver_to_gold
      [{ snapshot_date := 0, market := "US", artist_id := "a1",
         artist_name := "A", tracks := 1, total_score := 50,
         best_rank := 1 }] =
    silver_to_gold
      [{ snapshot_date := 0, market := "US", artist_id := "a1",
         artist_name := "A", tracks := 1, total_score := 50,
         best_rank := 1 }] :=
  ⟨C9_determinism.1 _ _ rfl, C9_determinism.2 _ _ rfl⟩

/-- C10.  Silver artists come only from positions common to both artist
lists: the (artistId, artistName) pair of every silver record sits at one
common index of the `artist_ids` and `artist_names` of some bronze row (Python `zip`
truncates to the shorter list), and concretely a row with ids
`["a1", "a2"]` but names `["A"]` contributes only the pair ("a1", "A") —
the excess id "a2" reaches no silver record. -/
theorem C10_zip_truncation (rows : List BronzeRow) :
    (∀ s ∈ bronze_to_silver rows, ∃ r, r ∈ rows ∧ ∃ i : Nat,
      r.artist_ids[i]? = some s.artist_id ∧
      r.artist_names[i]? = some s.artist_name) ∧
    (bronze_to_silver
      [{ snapshot_date := 0, market := "US", playlist_id := "p",
         playlist_name := "pl", rank := 1, track_id := "t1",
         track_name := none, artist_ids := ["a1", "a2"],
         artist_names := ["A"], score := some 10 }]).map
      (fun s => (s.artist_id, s.artist_name)) = [("a1", "A")] := by
  constructor
  · intro s hs
    obtain ⟨e, he, h1, h2⟩ := mem_bronze_to_silver rows s hs
    obtain ⟨r, hr, i, hi1, hi2⟩ := mem_explode he
    exact ⟨r, hr, i, by rw [← h1]; exact hi1, by rw [← h2]; exact hi2⟩
  · decide

/-- C10, witness for the general part: the silver record of the truncated
row points back to a common index of the two artist lists. -/
theorem C10_witness :
    ∃ r,
      r ∈ [({ snapshot_date := 0, market := "US", playlist_id := "p",
              playlist_name := "pl", rank := 1, track_id := "t1",
              track_name := none, artist_ids := ["a1", "a2"],
              artist_names := ["A"], score := some 10 } : BronzeRow)] ∧
      ∃ i : Nat, r.artist_ids[i]? = some "a1" ∧
        r.artist_names[i]? = some "A" :=
  (C10_zip_truncation
    [{ snapshot_date := 0, market := "US", playlist_id := "p",
       playlist_name := "pl", rank := 1, track_id := "t1", track_name := none,
       artist_ids := ["a1", "a2"], artist_names := ["A"],
       score := some 10 }]).1
    { snapshot_date := 0, market := "US", artist_id := "a1",
      artist_name := "A", tracks := 1, total_score := 10, best_rank := 1 }
    (by decide)

end SpotifyETL

